import Mathlib

/-!
Shallow embedding of the `src-server` HTTP service (files `src/app.js` and
`src/server.js`) and proofs about its `GET /src` handler.

Both variants share the same sync pipeline: fetch from origin, read
`git status`, pull when the up-to-date marker is absent, resolve `HEAD`,
then build or reuse a gzipped tar archive and stream it back.  The
external world (child-process execution and the filesystem) is modelled
as an oracle, and every side effect the handler performs is recorded in
an event trace, so that "no side effect happens" and "this exact command
is issued" are provable statements.

JavaScript string primitives (`trim`, `substring`, `includes`) and the
Node `path` module helpers (`join`, `dirname`, `basename`, posix rules)
are re-implemented on `List Char` by structural recursion so that all
definitions evaluate inside the kernel.
-/

namespace SrcServer

/-- A single-quote character as a string (used inside the git status marker). -/
def sq : String := "\x27"

/-- JavaScript `String.prototype.trim()`: drop whitespace from both ends. -/
def jsTrim (s : String) : String :=
  ⟨((s.data.dropWhile Char.isWhitespace).reverse.dropWhile Char.isWhitespace).reverse⟩

/-- JavaScript `s.substring(0, n)`: the first `n` code units (whole string when shorter). -/
def jsSubstring0 (s : String) (n : Nat) : String :=
  ⟨s.data.take n⟩

/-- Core of JavaScript `String.prototype.includes`: does `p` occur inside the list? -/
def listIncludes (p : List Char) : List Char → Bool
  | [] => p.isEmpty
  | c :: rest => p.isPrefixOf (c :: rest) || listIncludes p rest

/-- JavaScript `s.includes(pat)`. -/
def jsIncludes (s pat : String) : Bool :=
  listIncludes pat.data s.data

/-- Collapse runs of `/` into a single `/` (the part of Node `path.join`
normalization exercised here; `.`/`..` segments never occur in this service's
joined names). -/
def collapseSlashes : List Char → List Char
  | [] => []
  | [c] => [c]
  | a :: b :: rest =>
    if a = '/' ∧ b = '/' then collapseSlashes (b :: rest)
    else a :: collapseSlashes (b :: rest)

/-- Node `path.join(a, b)` (posix) for `.`/`..`-free segments: empty segments
are skipped, the rest are glued with `/` and duplicate slashes collapsed. -/
def pathJoin (a b : String) : String :=
  if a = "" then b
  else if b = "" then a
  else ⟨collapseSlashes (a.data ++ '/' :: b.data)⟩

/-- Node `path.basename(p)` (posix): the last portion of the path, ignoring
trailing slashes. -/
def basename (p : String) : String :=
  ⟨((p.data.reverse.dropWhile (· == '/')).takeWhile (· != '/')).reverse⟩

/-- Node `path.dirname(p)` (posix), mirroring Node's index-based algorithm:
skip trailing separators, skip the basename, and return everything before the
separator found there; `.` when there is no eligible separator, with the
special root cases of the Node implementation. -/
def dirname (p : String) : String :=
  match p.data with
  | [] => "."
  | c0 :: _ =>
    let hasRoot := c0 = '/'
    let r1 := p.data.reverse.dropWhile (· == '/')
    let r2 := r1.dropWhile (· != '/')
    match r2 with
    | [] => if hasRoot then "/" else "."
    | _ :: rest =>
      if rest = [] then (if hasRoot then "/" else ".")
      else if hasRoot ∧ rest.length = 1 then "//"
      else ⟨rest.reverse⟩

/-- Entry path recorded by `tar` for a file at relative path `rel` inside the
archived member directory `member`: names are stored relative to the working
directory tar was given, with leading slashes stripped from the member. -/
def tarEntryPath (member rel : String) : String :=
  (⟨member.data.dropWhile (· == '/')⟩ : String) ++ "/" ++ rel

/-- Outcome of one `execAsync` child-process invocation: captured stdout, or a
rejection carrying the error detail. -/
inductive ExecResult
  | ok (stdout : String)
  | err (msg : String)
deriving DecidableEq

deriving instance DecidableEq for Except

/-- Oracle for the external world: what each shell command would return, which
files exist, and whether `fs.unlink` would fail (`some` = error detail). -/
structure World where
  run : String → ExecResult
  fexists : String → Bool
  unlinkErr : String → Option String

/-- The part of the inbound request the handler looks at: the `auth` header. -/
structure Req where
  auth : Option String

/-- Response sent back: a fixed status/body, or a file download
(`res.download`, which streams the archive as an attachment). -/
inductive Resp
  | sent (status : Nat) (body : String)
  | download (path : String)
deriving DecidableEq

/-- Which source step issued a recorded shell command. -/
inductive StepTag
  | fetch | status | pull | revParse | tarBuild
deriving DecidableEq

/-- One observable side effect of a handler run. -/
inductive Ev
  | exec (tag : StepTag) (cmd : String)
  | fsAccess (path : String) (found : Bool)
  | fsUnlink (path : String)
  | log (msg : String)
  | logError (label : String) (detail : String)
deriving DecidableEq

/-- Auth guard of both handlers: `if (!authHeader || authHeader !== TOKEN)`
(`app.js` line 37, `server.js` line 31). -/
def authFailed (h : Option String) (token : String) : Bool :=
  match h with
  | none => true
  | some a => (a == "") || (a != token)

/-- `git -C ${repoPath} fetch origin` (`app.js` line 45, `server.js` line 37). -/
def fetchCmd (repoPath : String) : String :=
  "git -C " ++ repoPath ++ " fetch origin"

/-- `git -C ${repoPath} status` (`app.js` line 48, `server.js` line 40). -/
def statusCmd (repoPath : String) : String :=
  "git -C " ++ repoPath ++ " status"

/-- `git -C ${repoPath} pull origin ${BRANCH_NAME}` (`app.js` line 53, `server.js` line 45). -/
def pullCmd (repoPath branchName : String) : String :=
  "git -C " ++ repoPath ++ " pull origin " ++ branchName

/-- `git -C ${repoPath} rev-parse HEAD` (`app.js` line 56, `server.js` line 49). -/
def revParseCmd (repoPath : String) : String :=
  "git -C " ++ repoPath ++ " rev-parse HEAD"

/-- `cd ${GIT_REPO_PATH} && tar -czf ${tarFileName} ${SRC_FOLDER}` (`server.js` line 61). -/
def serverTarCmd (repoPath tarFileName srcFolder : String) : String :=
  "cd " ++ repoPath ++ " && tar -czf " ++ tarFileName ++ " " ++ srcFolder

/-- `tar -czf ${tarFilePath} -C ${parentFolder} ${baseFolder}` (`app.js` line 68). -/
def appTarCmd (tarFilePath parentFolder baseFolder : String) : String :=
  "tar -czf " ++ tarFilePath ++ " -C " ++ parentFolder ++ " " ++ baseFolder

/-- The up-to-date marker searched for in the `git status` output:
`Your branch is up to date with 'origin/${BRANCH_NAME}'`
(`app.js` line 49, `server.js` line 41). -/
def upToDateMarker (branchName : String) : String :=
  "Your branch is up to date with " ++ sq ++ "origin/" ++ branchName ++ sq

/-- `hashOutput.trim().substring(0, 7)` (`app.js` line 57, `server.js` line 50). -/
def shortHash (hashOutput : String) : String :=
  jsSubstring0 (jsTrim hashOutput) 7

/-- `src-${gitHash}.tar.gz` with `gitHash = hashOutput.trim().substring(0, 7)`
(`server.js` lines 50-51). -/
def serverTarName (hashOutput : String) : String :=
  "src-" ++ shortHash hashOutput ++ ".tar.gz"

/-- `src-${gitHash}-${nanoid()}.tar.gz` (`app.js` lines 57-58). -/
def appTarName (hashOutput nid : String) : String :=
  "src-" ++ shortHash hashOutput ++ "-" ++ nid ++ ".tar.gz"

/-- `git rev-parse HEAD` step shared by both variants: records the command and
returns its stdout, or the error detail on failure. -/
def resolveHead (repoPath : String) (w : World) (evs : List Ev) :
    Except String String × List Ev :=
  let c := revParseCmd repoPath
  match w.run c with
  | .err e => (.error e, evs ++ [.exec .revParse c])
  | .ok hashOutput => (.ok hashOutput, evs ++ [.exec .revParse c])

/-- The sync-then-resolve pipeline shared verbatim by `app.js` lines 44-57 and
`server.js` lines 36-50: fetch origin, read `git status`, pull the configured
branch when the up-to-date marker is absent, then resolve `HEAD`.  Returns the
raw `rev-parse` stdout or the first error detail, with the trace of issued
commands. -/
def syncAndResolve (repoPath branchName : String) (w : World) :
    Except String String × List Ev :=
  let c1 := fetchCmd repoPath
  match w.run c1 with
  | .err e => (.error e, [.exec .fetch c1])
  | .ok _ =>
    let c2 := statusCmd repoPath
    match w.run c2 with
    | .err e => (.error e, [.exec .fetch c1, .exec .status c2])
    | .ok statusOutput =>
      let isUpToDate := jsIncludes statusOutput (upToDateMarker branchName)
      if isUpToDate then
        resolveHead repoPath w [.exec .fetch c1, .exec .status c2]
      else
        let c3 := pullCmd repoPath branchName
        match w.run c3 with
        | .err e =>
          (.error e,
            [.exec .fetch c1, .exec .status c2,
             .log "Repo not in sync, pulling...", .exec .pull c3])
        | .ok _ =>
          resolveHead repoPath w
            [.exec .fetch c1, .exec .status c2,
             .log "Repo not in sync, pulling...", .exec .pull c3]

/-- Startup configuration captured by `server.js` lines 13-16. -/
structure Config where
  gitRepoPath : String
  branchName : String
  srcFolder : String
  token : String
deriving DecidableEq

/-- The `GET /src` handler of `server.js` (lines 29-70): auth guard, sync and
resolve, then the persistent revision-keyed archive: the tar file
`src-<hash>.tar.gz` lives next to the working copy, is reused when present and
built with `cd ${GIT_REPO_PATH} && tar ...` otherwise; any failure is caught,
logged, and answered with a fixed 500 body. -/
def serverHandler (cfg : Config) (w : World) (req : Req) : Resp × List Ev :=
  if authFailed req.auth cfg.token then (.sent 401 "Unauthorized", [])
  else
    match syncAndResolve cfg.gitRepoPath cfg.branchName w with
    | (.error e, evs) =>
      (.sent 500 "Internal Server Error",
        evs ++ [.logError "Error in /src route:" e])
    | (.ok hashOutput, evs) =>
      let tarFileName := serverTarName hashOutput
      let tarFilePath := pathJoin cfg.gitRepoPath tarFileName
      if w.fexists tarFilePath then
        (.download tarFilePath,
          evs ++ [.fsAccess tarFilePath true,
                  .log "Tar file already exists, serving..."])
      else
        let c := serverTarCmd cfg.gitRepoPath tarFileName cfg.srcFolder
        match w.run c with
        | .err e =>
          (.sent 500 "Internal Server Error",
            evs ++ [.fsAccess tarFilePath false, .log "Creating tar file...",
                    .exec .tarBuild c, .logError "Error in /src route:" e])
        | .ok _ =>
          (.download tarFilePath,
            evs ++ [.fsAccess tarFilePath false, .log "Creating tar file...",
                    .exec .tarBuild c])

/-- Module-load state of `app.js`: `BRANCH_NAME`, `SRC_FOLDER` and `TOKEN` are
destructured from `process.env` once (line 27) and `os.tmpdir()` is captured
once (line 14); `GIT_REPO_PATH` is deliberately absent — the handler re-reads
it per request. -/
structure AppCtx where
  branchName : String
  srcFolder : String
  token : String
  tempFolder : String
deriving DecidableEq

/-- The process environment as seen through `process.env`. -/
def EnvMap : Type := String → Option String

/-- JavaScript string interpolation of `process.env[k]`: an absent variable
renders as `undefined`. -/
def envString (env : EnvMap) (k : String) : String :=
  match env k with
  | some v => v
  | none => "undefined"

/-- Tail of the `app.js` handler after a path was chosen (lines 66-71):
`tar -czf ${tarFilePath} -C ${path.dirname(SRC_FOLDER)} ${path.basename(SRC_FOLDER)}`,
then `res.download`. -/
def appTarStep (ctx : AppCtx) (w : World) (tarFilePath : String) (evs : List Ev) :
    Resp × List Ev :=
  let parentFolder := dirname ctx.srcFolder
  let baseFolder := basename ctx.srcFolder
  let c := appTarCmd tarFilePath parentFolder baseFolder
  match w.run c with
  | .err e =>
    (.sent 500 "Internal Server Error",
      evs ++ [.exec .tarBuild c, .logError "Error in /src route:" e])
  | .ok _ => (.download tarFilePath, evs ++ [.exec .tarBuild c])

/-- The `GET /src` handler of `app.js` (lines 35-77): auth guard, per-request
read of `process.env.GIT_REPO_PATH`, sync and resolve, then a transient
archive `src-<hash>-<nanoid>.tar.gz` in the OS temp folder: a stale file at
that path is unlinked first, and a fresh archive is always built rooted at the
parent of `SRC_FOLDER`.  `nid` is the nanoid drawn for this request. -/
def appHandler (ctx : AppCtx) (env : EnvMap) (nid : String) (w : World) (req : Req) :
    Resp × List Ev :=
  if authFailed req.auth ctx.token then (.sent 401 "Unauthorized", [])
  else
    let repoPath := envString env "GIT_REPO_PATH"
    match syncAndResolve repoPath ctx.branchName w with
    | (.error e, evs) =>
      (.sent 500 "Internal Server Error",
        evs ++ [.logError "Error in /src route:" e])
    | (.ok hashOutput, evs) =>
      let tarFileName := appTarName hashOutput nid
      let tarFilePath := pathJoin ctx.tempFolder tarFileName
      if w.fexists tarFilePath then
        match w.unlinkErr tarFilePath with
        | some e =>
          (.sent 500 "Internal Server Error",
            evs ++ [.fsAccess tarFilePath true, .fsUnlink tarFilePath,
                    .logError "Error in /src route:" e])
        | none =>
          appTarStep ctx w tarFilePath
            (evs ++ [.fsAccess tarFilePath true, .fsUnlink tarFilePath])
      else
        appTarStep ctx w tarFilePath (evs ++ [.fsAccess tarFilePath false])

/-- Truthiness test `!process.env[key]` used by both startup validations:
present and non-empty. -/
def envPresent (env : EnvMap) (k : String) : Bool :=
  match env k with
  | some v => v != ""
  | none => false

/-- `app.js` module load (lines 14-27): validate the four required variables
(exit when one is missing) and capture `BRANCH_NAME`, `SRC_FOLDER`, `TOKEN`
and the temp folder.  `GIT_REPO_PATH` is only validated, not captured. -/
def appModuleInit (tempFolder : String) (env : EnvMap) : Option AppCtx :=
  if envPresent env "GIT_REPO_PATH" && envPresent env "BRANCH_NAME" &&
      envPresent env "SRC_FOLDER" && envPresent env "TOKEN" then
    some { branchName := envString env "BRANCH_NAME"
           srcFolder := envString env "SRC_FOLDER"
           token := envString env "TOKEN"
           tempFolder := tempFolder }
  else none

/-- `server.js` startup (lines 13-21): validate and capture all four
variables. -/
def serverModuleInit (env : EnvMap) : Option Config :=
  if envPresent env "GIT_REPO_PATH" && envPresent env "BRANCH_NAME" &&
      envPresent env "SRC_FOLDER" && envPresent env "TOKEN" then
    some { gitRepoPath := envString env "GIT_REPO_PATH"
           branchName := envString env "BRANCH_NAME"
           srcFolder := envString env "SRC_FOLDER"
           token := envString env "TOKEN" }
  else none

/-- One `app.js` request as seen from the process: module state captured from
the startup environment, handler reading the request-time environment. -/
def appRequest (tempFolder : String) (startupEnv requestEnv : EnvMap)
    (nid : String) (w : World) (req : Req) : Option (Resp × List Ev) :=
  (appModuleInit tempFolder startupEnv).map fun ctx =>
    appHandler ctx requestEnv nid w req

/-- One `server.js` request: the handler closes over the startup capture only,
so the request-time environment is never consulted. -/
def serverRequest (startupEnv _requestEnv : EnvMap) (w : World) (req : Req) :
    Option (Resp × List Ev) :=
  (serverModuleInit startupEnv).map fun cfg => serverHandler cfg w req

/-- Does the event record a shell command issued by step `t`? -/
def isExecTag (t : StepTag) : Ev → Bool
  | .exec t' _ => t' == t
  | _ => false

/-- Does the event record a `git pull` invocation? -/
def isPullEv : Ev → Bool
  | .exec .pull _ => true
  | _ => false

/-- Some shell command recorded in the trace failed in world `w`. -/
def someExecFailed (w : World) (evs : List Ev) : Prop :=
  ∃ t c e, Ev.exec t c ∈ evs ∧ w.run c = .err e

/-- No retry: each pipeline step issues its command at most once per request. -/
def noRetry (evs : List Ev) : Prop :=
  ∀ t, (evs.filter (isExecTag t)).length ≤ 1

/-! ### Concrete test fixtures -/

/-- A `server.js` startup configuration as in the repository's test suite. -/
def cfgT : Config := ⟨"/repo", "main", "src", "secret"⟩

/-- An `app.js` module-load capture matching `cfgT`. -/
def ctxT : AppCtx := ⟨"main", "src", "secret", "/tmp"⟩

/-- A `git status` output containing the up-to-date marker for `main`. -/
def okStatus : String :=
  "On branch main\nYour branch is up to date with " ++ sq ++ "origin/main" ++ sq ++
    ".\n\nnothing to commit, working tree clean\n"

/-- A full 40-character `rev-parse` output with its trailing newline. -/
def hashT : String := "1234567890abcdef1234567890abcdef12345678\n"

/-- A world in which every command succeeds, `git status` reports up to date,
`rev-parse` answers `hashT`, and no archive file exists yet. -/
def wT : World :=
  { run := fun c =>
      if c = statusCmd "/repo" then .ok okStatus
      else if c = revParseCmd "/repo" then .ok hashT
      else .ok ""
    fexists := fun _ => false
    unlinkErr := fun _ => none }

/-- A request carrying the correct token. -/
def reqT : Req := ⟨some "secret"⟩

/-- Like `wT`, but the revision-keyed archive file already exists. -/
def wHit : World :=
  { run := wT.run
    fexists := fun _ => true
    unlinkErr := fun _ => none }

/-- A fully populated startup environment. -/
def envFull : EnvMap := fun k =>
  if k = "GIT_REPO_PATH" then some "/repo"
  else if k = "BRANCH_NAME" then some "main"
  else if k = "SRC_FOLDER" then some "src"
  else if k = "TOKEN" then some "secret"
  else none

/-- `envFull` after mutating only `GIT_REPO_PATH`. -/
def envRepoB : EnvMap := fun k =>
  if k = "GIT_REPO_PATH" then some "/other" else envFull k

/-- A world in which every command fails (e.g. `GIT_REPO_PATH` points at a
path that is unreachable, so the very first `git fetch` rejects). -/
def wFetchFail : World :=
  { run := fun _ => .err "fatal: could not read from remote repository"
    fexists := fun _ => false
    unlinkErr := fun _ => none }

/-- A configuration whose `SRC_FOLDER` is a nested relative path. -/
def cfgDeep : Config := ⟨"/repo", "main", "home/user/src", "secret"⟩

/-- A `git status` output that lacks the up-to-date marker (local branch is
behind its remote counterpart). -/
def behindStatus : String :=
  "On branch main\nYour branch is behind " ++ sq ++ "origin/main" ++ sq ++
    " by 2 commits, and can be fast-forwarded.\n"

/-- Like `wT`, but `git status` reports the branch behind the remote, so the
handlers take the pull branch. -/
def wPull : World :=
  { run := fun c =>
      if c = statusCmd "/repo" then .ok behindStatus
      else if c = revParseCmd "/repo" then .ok hashT
      else .ok ""
    fexists := fun _ => false
    unlinkErr := fun _ => none }

/-! ### Interleaving model of the cache-check/build race (`server.js` lines 54-62)

`fs.access` and the `tar` build are separate `await` points, so two
concurrent requests for the same new revision can interleave between the
existence check and the build.  Each request is reduced to its two atomic
steps against the shared filesystem flag for the revision-keyed path. -/

/-- One atomic step of a single request inside the cache-check/build section:
pc `0` runs the `fs.access` existence check and records hit/miss, pc `1`
runs `tar` when a miss was recorded (`server.js` line 61) and serves the
file otherwise, pc `2` is done.  Returns the new existence flag, new pc,
recorded miss flag, and the number of builds performed by this step. -/
def reqStep (tarExists : Bool) (pc : Nat) (miss : Bool) : Bool × Nat × Bool × Nat :=
  match pc with
  | 0 => (tarExists, 1, !tarExists, 0)
  | 1 => if miss then (true, 2, miss, 1) else (tarExists, 2, miss, 0)
  | _ => (tarExists, pc, miss, 0)

/-- Joint state of two concurrent authenticated first-requests for the same
new revision: the shared existence flag of the keyed archive path, each
request's program counter and recorded miss, and the total build count. -/
structure RaceState where
  tarExists : Bool
  pc1 : Nat
  miss1 : Bool
  pc2 : Nat
  miss2 : Bool
  builds : Nat
deriving DecidableEq

/-- Scheduler step: `true` advances request 1, `false` advances request 2. -/
def raceStep (s : RaceState) : Bool → RaceState
  | true =>
    let r := reqStep s.tarExists s.pc1 s.miss1
    { s with tarExists := r.1, pc1 := r.2.1, miss1 := r.2.2.1,
             builds := s.builds + r.2.2.2 }
  | false =>
    let r := reqStep s.tarExists s.pc2 s.miss2
    { s with tarExists := r.1, pc2 := r.2.1, miss2 := r.2.2.1,
             builds := s.builds + r.2.2.2 }

/-- Run a schedule (list of scheduler choices) from a state. -/
def runSched : RaceState → List Bool → RaceState
  | s, [] => s
  | s, a :: rest => runSched (raceStep s a) rest

/-- Both requests poised before the existence check, archive absent, no
builds performed yet. -/
def initRace : RaceState := ⟨false, 0, false, 0, false, 0⟩

/-! ### Helper lemmas about the shared pipeline -/

/-- An absent or mismatched `auth` header fails the guard. -/
theorem authFailed_of_ne {o : Option String} {t : String} (h : o ≠ some t) :
    authFailed o t = true := by
  cases o with
  | none => rfl
  | some a =>
    have ha : a ≠ t := fun he => h (by rw [he])
    simp [authFailed]
    exact Or.inr ha

/-- Exhaustive case description of the sync-and-resolve pipeline: every
possible world is in exactly one of seven shapes, each with its exact trace. -/
theorem syncAndResolve_cases (repoPath branchName : String) (w : World) :
    (∃ e, w.run (fetchCmd repoPath) = .err e ∧
      syncAndResolve repoPath branchName w =
        (.error e, [.exec .fetch (fetchCmd repoPath)])) ∨
    (∃ o e, w.run (fetchCmd repoPath) = .ok o ∧
      w.run (statusCmd repoPath) = .err e ∧
      syncAndResolve repoPath branchName w =
        (.error e, [.exec .fetch (fetchCmd repoPath),
                    .exec .status (statusCmd repoPath)])) ∨
    (∃ o s, w.run (fetchCmd repoPath) = .ok o ∧
      w.run (statusCmd repoPath) = .ok s ∧
      jsIncludes s (upToDateMarker branchName) = true ∧
      ((∃ e, w.run (revParseCmd repoPath) = .err e ∧
        syncAndResolve repoPath branchName w =
          (.error e, [.exec .fetch (fetchCmd repoPath),
                      .exec .status (statusCmd repoPath),
                      .exec .revParse (revParseCmd repoPath)])) ∨
       (∃ h, w.run (revParseCmd repoPath) = .ok h ∧
        syncAndResolve repoPath branchName w =
          (.ok h, [.exec .fetch (fetchCmd repoPath),
                   .exec .status (statusCmd repoPath),
                   .exec .revParse (revParseCmd repoPath)])))) ∨
    (∃ o s, w.run (fetchCmd repoPath) = .ok o ∧
      w.run (statusCmd repoPath) = .ok s ∧
      jsIncludes s (upToDateMarker branchName) = false ∧
      ((∃ e, w.run (pullCmd repoPath branchName) = .err e ∧
        syncAndResolve repoPath branchName w =
          (.error e, [.exec .fetch (fetchCmd repoPath),
                      .exec .status (statusCmd repoPath),
                      .log "Repo not in sync, pulling...",
                      .exec .pull (pullCmd repoPath branchName)])) ∨
       (∃ o3, w.run (pullCmd repoPath branchName) = .ok o3 ∧
        ((∃ e, w.run (revParseCmd repoPath) = .err e ∧
          syncAndResolve repoPath branchName w =
            (.error e, [.exec .fetch (fetchCmd repoPath),
                        .exec .status (statusCmd repoPath),
                        .log "Repo not in sync, pulling...",
                        .exec .pull (pullCmd repoPath branchName),
                        .exec .revParse (revParseCmd repoPath)])) ∨
         (∃ h, w.run (revParseCmd repoPath) = .ok h ∧
          syncAndResolve repoPath branchName w =
            (.ok h, [.exec .fetch (fetchCmd repoPath),
                     .exec .status (statusCmd repoPath),
                     .log "Repo not in sync, pulling...",
                     .exec .pull (pullCmd repoPath branchName),
                     .exec .revParse (revParseCmd repoPath)])))))) := by
  rcases h1 : w.run (fetchCmd repoPath) with o1 | e1
  · rcases h2 : w.run (statusCmd repoPath) with o2 | e2
    · cases h3 : jsIncludes o2 (upToDateMarker branchName) with
      | true =>
        rcases h4 : w.run (revParseCmd repoPath) with o4 | e4
        · exact Or.inr (Or.inr (Or.inl ⟨o1, o2, rfl, rfl, h3,
            Or.inr ⟨o4, rfl, by simp [syncAndResolve, resolveHead, h1, h2, h3, h4]⟩⟩))
        · exact Or.inr (Or.inr (Or.inl ⟨o1, o2, rfl, rfl, h3,
            Or.inl ⟨e4, rfl, by simp [syncAndResolve, resolveHead, h1, h2, h3, h4]⟩⟩))
      | false =>
        rcases h5 : w.run (pullCmd repoPath branchName) with o5 | e5
        · rcases h4 : w.run (revParseCmd repoPath) with o4 | e4
          · exact Or.inr (Or.inr (Or.inr ⟨o1, o2, rfl, rfl, h3,
              Or.inr ⟨o5, rfl, Or.inr ⟨o4, rfl,
                by simp [syncAndResolve, resolveHead, h1, h2, h3, h5, h4]⟩⟩⟩))
          · exact Or.inr (Or.inr (Or.inr ⟨o1, o2, rfl, rfl, h3,
              Or.inr ⟨o5, rfl, Or.inl ⟨e4, rfl,
                by simp [syncAndResolve, resolveHead, h1, h2, h3, h5, h4]⟩⟩⟩))
        · exact Or.inr (Or.inr (Or.inr ⟨o1, o2, rfl, rfl, h3,
            Or.inl ⟨e5, rfl, by simp [syncAndResolve, h1, h2, h3, h5]⟩⟩))
    · exact Or.inr (Or.inl ⟨o1, e2, rfl, rfl, by simp [syncAndResolve, h1, h2]⟩)
  · exact Or.inl ⟨e1, rfl, by simp [syncAndResolve, h1]⟩

/-- The sync pipeline never records an archive build. -/
theorem syncAndResolve_no_build (repoPath branchName : String) (w : World) :
    ∀ t c, Ev.exec t c ∈ (syncAndResolve repoPath branchName w).2 →
      t ≠ .tarBuild := by
  intro t c hmem hEq
  subst hEq
  rcases syncAndResolve_cases repoPath branchName w with
    ⟨e, h1, hs⟩ | ⟨o, e, h1, h2, hs⟩ | ⟨o, st, h1, h2, h3, ⟨e, h4, hs⟩ | ⟨hh, h4, hs⟩⟩ |
    ⟨o, st, h1, h2, h3, ⟨e, h5, hs⟩ | ⟨o3, h5, ⟨e, h4, hs⟩ | ⟨hh, h4, hs⟩⟩⟩ <;>
  · rw [hs] at hmem
    simp at hmem

/-- When the sync pipeline succeeds, every command it recorded succeeded. -/
theorem syncAndResolve_ok_all_ok (repoPath branchName : String) (w : World)
    (hh : String) (h : (syncAndResolve repoPath branchName w).1 = .ok hh) :
    ∀ t c, Ev.exec t c ∈ (syncAndResolve repoPath branchName w).2 →
      ∃ o, w.run c = .ok o := by
  intro t c hmem
  rcases syncAndResolve_cases repoPath branchName w with
    ⟨e, h1, hs⟩ | ⟨o, e, h1, h2, hs⟩ | ⟨o, st, h1, h2, h3, hc⟩ |
    ⟨o, st, h1, h2, h3, hc⟩
  · rw [hs] at h; simp at h
  · rw [hs] at h; simp at h
  · rcases hc with ⟨e, h4, hs⟩ | ⟨hh2, h4, hs⟩
    · rw [hs] at h; simp at h
    · rw [hs] at hmem
      simp at hmem
      rcases hmem with ⟨-, rfl⟩ | ⟨-, rfl⟩ | ⟨-, rfl⟩
      · exact ⟨o, h1⟩
      · exact ⟨st, h2⟩
      · exact ⟨hh2, h4⟩
  · rcases hc with ⟨e, h5, hs⟩ | ⟨o3, h5, ⟨e, h4, hs⟩ | ⟨hh2, h4, hs⟩⟩
    · rw [hs] at h; simp at h
    · rw [hs] at h; simp at h
    · rw [hs] at hmem
      simp at hmem
      rcases hmem with ⟨-, rfl⟩ | ⟨-, rfl⟩ | ⟨-, rfl⟩ | ⟨-, rfl⟩
      · exact ⟨o, h1⟩
      · exact ⟨st, h2⟩
      · exact ⟨o3, h5⟩
      · exact ⟨hh2, h4⟩

/-- The sync pipeline issues each step's command at most once. -/
theorem syncAndResolve_noRetry (repoPath branchName : String) (w : World) :
    noRetry (syncAndResolve repoPath branchName w).2 := by
  intro t
  rcases syncAndResolve_cases repoPath branchName w with
    ⟨e, h1, hs⟩ | ⟨o, e, h1, h2, hs⟩ | ⟨o, st, h1, h2, h3, ⟨e, h4, hs⟩ | ⟨hh, h4, hs⟩⟩ |
    ⟨o, st, h1, h2, h3, ⟨e, h5, hs⟩ | ⟨o3, h5, ⟨e, h4, hs⟩ | ⟨hh, h4, hs⟩⟩⟩ <;>
  · rw [hs]
    cases t <;> simp [isExecTag]

/-- A failed sync makes the `server.js` handler answer the fixed 500. -/
theorem serverHandler_err_form (cfg : Config) (w : World) (req : Req)
    (e : String) (evs0 : List Ev)
    (hauth : authFailed req.auth cfg.token = false)
    (hsync : syncAndResolve cfg.gitRepoPath cfg.branchName w = (.error e, evs0)) :
    serverHandler cfg w req =
      (.sent 500 "Internal Server Error",
        evs0 ++ [.logError "Error in /src route:" e]) := by
  simp [serverHandler, hauth, hsync]

/-- A failed sync makes the `app.js` handler answer the fixed 500. -/
theorem appHandler_err_form (ctx : AppCtx) (env : EnvMap) (nid : String)
    (w : World) (req : Req) (e : String) (evs0 : List Ev)
    (hauth : authFailed req.auth ctx.token = false)
    (hsync : syncAndResolve (envString env "GIT_REPO_PATH") ctx.branchName w =
      (.error e, evs0)) :
    appHandler ctx env nid w req =
      (.sent 500 "Internal Server Error",
        evs0 ++ [.logError "Error in /src route:" e]) := by
  simp [appHandler, hauth, hsync]

/-- Exhaustive case description of the `server.js` handler after a successful
sync: cache hit, successful build, or failed build. -/
theorem serverHandler_ok_form (cfg : Config) (w : World) (req : Req)
    (hashOutput : String) (evs0 : List Ev)
    (hauth : authFailed req.auth cfg.token = false)
    (hsync : syncAndResolve cfg.gitRepoPath cfg.branchName w =
      (.ok hashOutput, evs0)) :
    (w.fexists (pathJoin cfg.gitRepoPath (serverTarName hashOutput)) = true ∧
      serverHandler cfg w req =
        (.download (pathJoin cfg.gitRepoPath (serverTarName hashOutput)),
          evs0 ++
            [.fsAccess (pathJoin cfg.gitRepoPath (serverTarName hashOutput)) true,
             .log "Tar file already exists, serving..."])) ∨
    (w.fexists (pathJoin cfg.gitRepoPath (serverTarName hashOutput)) = false ∧
      ∃ o, w.run (serverTarCmd cfg.gitRepoPath (serverTarName hashOutput)
          cfg.srcFolder) = .ok o ∧
        serverHandler cfg w req =
          (.download (pathJoin cfg.gitRepoPath (serverTarName hashOutput)),
            evs0 ++
              [.fsAccess (pathJoin cfg.gitRepoPath (serverTarName hashOutput)) false,
               .log "Creating tar file...",
               .exec .tarBuild (serverTarCmd cfg.gitRepoPath
                 (serverTarName hashOutput) cfg.srcFolder)])) ∨
    (w.fexists (pathJoin cfg.gitRepoPath (serverTarName hashOutput)) = false ∧
      ∃ e, w.run (serverTarCmd cfg.gitRepoPath (serverTarName hashOutput)
          cfg.srcFolder) = .err e ∧
        serverHandler cfg w req =
          (.sent 500 "Internal Server Error",
            evs0 ++
              [.fsAccess (pathJoin cfg.gitRepoPath (serverTarName hashOutput)) false,
               .log "Creating tar file...",
               .exec .tarBuild (serverTarCmd cfg.gitRepoPath
                 (serverTarName hashOutput) cfg.srcFolder),
               .logError "Error in /src route:" e])) := by
  cases hfe : w.fexists (pathJoin cfg.gitRepoPath (serverTarName hashOutput)) with
  | true =>
    exact Or.inl ⟨rfl, by simp [serverHandler, hauth, hsync, hfe]⟩
  | false =>
    rcases hbc : w.run (serverTarCmd cfg.gitRepoPath (serverTarName hashOutput)
        cfg.srcFolder) with o | e
    · exact Or.inr (Or.inl ⟨rfl, o, rfl,
        by simp [serverHandler, hauth, hsync, hfe, hbc]⟩)
    · exact Or.inr (Or.inr ⟨rfl, e, rfl,
        by simp [serverHandler, hauth, hsync, hfe, hbc]⟩)

/-- Exhaustive case description of the `app.js` handler after a successful
sync: stale-file unlink failure, build after unlink, or build on a fresh
path, each succeeding or failing. -/
theorem appHandler_ok_form (ctx : AppCtx) (env : EnvMap) (nid : String)
    (w : World) (req : Req) (hashOutput : String) (evs0 : List Ev)
    (hauth : authFailed req.auth ctx.token = false)
    (hsync : syncAndResolve (envString env "GIT_REPO_PATH") ctx.branchName w =
      (.ok hashOutput, evs0)) :
    (w.fexists (pathJoin ctx.tempFolder (appTarName hashOutput nid)) = true ∧
      ∃ e, w.unlinkErr (pathJoin ctx.tempFolder (appTarName hashOutput nid)) = some e ∧
        appHandler ctx env nid w req =
          (.sent 500 "Internal Server Error",
            evs0 ++
              [.fsAccess (pathJoin ctx.tempFolder (appTarName hashOutput nid)) true,
               .fsUnlink (pathJoin ctx.tempFolder (appTarName hashOutput nid)),
               .logError "Error in /src route:" e])) ∨
    (w.fexists (pathJoin ctx.tempFolder (appTarName hashOutput nid)) = true ∧
      w.unlinkErr (pathJoin ctx.tempFolder (appTarName hashOutput nid)) = none ∧
      ∃ o, w.run (appTarCmd (pathJoin ctx.tempFolder (appTarName hashOutput nid))
          (dirname ctx.srcFolder) (basename ctx.srcFolder)) = .ok o ∧
        appHandler ctx env nid w req =
          (.download (pathJoin ctx.tempFolder (appTarName hashOutput nid)),
            evs0 ++
              [.fsAccess (pathJoin ctx.tempFolder (appTarName hashOutput nid)) true,
               .fsUnlink (pathJoin ctx.tempFolder (appTarName hashOutput nid)),
               .exec .tarBuild (appTarCmd
                 (pathJoin ctx.tempFolder (appTarName hashOutput nid))
                 (dirname ctx.srcFolder) (basename ctx.srcFolder))])) ∨
    (w.fexists (pathJoin ctx.tempFolder (appTarName hashOutput nid)) = true ∧
      w.unlinkErr (pathJoin ctx.tempFolder (appTarName hashOutput nid)) = none ∧
      ∃ e, w.run (appTarCmd (pathJoin ctx.tempFolder (appTarName hashOutput nid))
          (dirname ctx.srcFolder) (basename ctx.srcFolder)) = .err e ∧
        appHandler ctx env nid w req =
          (.sent 500 "Internal Server Error",
            evs0 ++
              [.fsAccess (pathJoin ctx.tempFolder (appTarName hashOutput nid)) true,
               .fsUnlink (pathJoin ctx.tempFolder (appTarName hashOutput nid)),
               .exec .tarBuild (appTarCmd
                 (pathJoin ctx.tempFolder (appTarName hashOutput nid))
                 (dirname ctx.srcFolder) (basename ctx.srcFolder)),
               .logError "Error in /src route:" e])) ∨
    (w.fexists (pathJoin ctx.tempFolder (appTarName hashOutput nid)) = false ∧
      ∃ o, w.run (appTarCmd (pathJoin ctx.tempFolder (appTarName hashOutput nid))
          (dirname ctx.srcFolder) (basename ctx.srcFolder)) = .ok o ∧
        appHandler ctx env nid w req =
          (.download (pathJoin ctx.tempFolder (appTarName hashOutput nid)),
            evs0 ++
              [.fsAccess (pathJoin ctx.tempFolder (appTarName hashOutput nid)) false,
               .exec .tarBuild (appTarCmd
                 (pathJoin ctx.tempFolder (appTarName hashOutput nid))
                 (dirname ctx.srcFolder) (basename ctx.srcFolder))])) ∨
    (w.fexists (pathJoin ctx.tempFolder (appTarName hashOutput nid)) = false ∧
      ∃ e, w.run (appTarCmd (pathJoin ctx.tempFolder (appTarName hashOutput nid))
          (dirname ctx.srcFolder) (basename ctx.srcFolder)) = .err e ∧
        appHandler ctx env nid w req =
          (.sent 500 "Internal Server Error",
            evs0 ++
              [.fsAccess (pathJoin ctx.tempFolder (appTarName hashOutput nid)) false,
               .exec .tarBuild (appTarCmd
                 (pathJoin ctx.tempFolder (appTarName hashOutput nid))
                 (dirname ctx.srcFolder) (basename ctx.srcFolder)),
               .logError "Error in /src route:" e])) := by
  cases hfe : w.fexists (pathJoin ctx.tempFolder (appTarName hashOutput nid)) with
  | true =>
    cases hue : w.unlinkErr (pathJoin ctx.tempFolder (appTarName hashOutput nid)) with
    | some e =>
      exact Or.inl ⟨rfl, e, rfl,
        by simp [appHandler, appTarStep, hauth, hsync, hfe, hue]⟩
    | none =>
      rcases hbc : w.run (appTarCmd
          (pathJoin ctx.tempFolder (appTarName hashOutput nid))
          (dirname ctx.srcFolder) (basename ctx.srcFolder)) with o | e
      · exact Or.inr (Or.inl ⟨rfl, rfl, o, rfl,
          by simp [appHandler, appTarStep, hauth, hsync, hfe, hue, hbc]⟩)
      · exact Or.inr (Or.inr (Or.inl ⟨rfl, rfl, e, rfl,
          by simp [appHandler, appTarStep, hauth, hsync, hfe, hue, hbc]⟩))
  | false =>
    rcases hbc : w.run (appTarCmd
        (pathJoin ctx.tempFolder (appTarName hashOutput nid))
        (dirname ctx.srcFolder) (basename ctx.srcFolder)) with o | e
    · exact Or.inr (Or.inr (Or.inr (Or.inl ⟨rfl, o, rfl,
        by simp [appHandler, appTarStep, hauth, hsync, hfe, hbc]⟩)))
    · exact Or.inr (Or.inr (Or.inr (Or.inr ⟨rfl, e, rfl,
        by simp [appHandler, appTarStep, hauth, hsync, hfe, hbc]⟩)))

/-- Events recording only tar builds contain no pull invocation. -/
theorem filter_pull_nil_of_only_build (tail : List Ev)
    (h : ∀ t c, Ev.exec t c ∈ tail → t = .tarBuild) :
    tail.filter isPullEv = [] := by
  rw [List.filter_eq_nil_iff]
  intro a ha
  cases a with
  | exec t c =>
    cases t <;> simp [isPullEv]
    exact absurd (h .pull c ha) (by decide)
  | fsAccess p f => simp [isPullEv]
  | fsUnlink p => simp [isPullEv]
  | log m => simp [isPullEv]
  | logError l d => simp [isPullEv]

/-- The trace of the `server.js` handler is the sync trace followed by a tail
whose only shell commands are archive builds. -/
theorem serverHandler_trace_split (cfg : Config) (w : World) (req : Req)
    (hauth : authFailed req.auth cfg.token = false) :
    ∃ tail, (serverHandler cfg w req).2 =
        (syncAndResolve cfg.gitRepoPath cfg.branchName w).2 ++ tail ∧
      (∀ t c, Ev.exec t c ∈ tail → t = .tarBuild) ∧
      (∀ t, (tail.filter (isExecTag t)).length ≤ 1) := by
  rcases hx : syncAndResolve cfg.gitRepoPath cfg.branchName w with ⟨x, evs0⟩
  cases x with
  | error e =>
    have hH := serverHandler_err_form cfg w req e evs0 hauth hx
    refine ⟨[.logError "Error in /src route:" e], by simp [hH, hx], ?_, fun t => by cases t <;> simp [isExecTag]⟩
    intro t c hmem; simp at hmem
  | ok hashOutput =>
    rcases serverHandler_ok_form cfg w req hashOutput evs0 hauth hx with
      ⟨hfe, hH⟩ | ⟨hfe, o, hbc, hH⟩ | ⟨hfe, e, hbc, hH⟩
    · refine ⟨[.fsAccess (pathJoin cfg.gitRepoPath (serverTarName hashOutput)) true,
        .log "Tar file already exists, serving..."], by simp [hH, hx], ?_, fun t => by cases t <;> simp [isExecTag]⟩
      intro t c hmem; simp at hmem
    · refine ⟨[.fsAccess (pathJoin cfg.gitRepoPath (serverTarName hashOutput)) false,
        .log "Creating tar file...",
        .exec .tarBuild (serverTarCmd cfg.gitRepoPath (serverTarName hashOutput)
          cfg.srcFolder)], by simp [hH, hx], ?_, fun t => by cases t <;> simp [isExecTag]⟩
      intro t c hmem
      simp at hmem
      exact hmem.1
    · refine ⟨[.fsAccess (pathJoin cfg.gitRepoPath (serverTarName hashOutput)) false,
        .log "Creating tar file...",
        .exec .tarBuild (serverTarCmd cfg.gitRepoPath (serverTarName hashOutput)
          cfg.srcFolder),
        .logError "Error in /src route:" e], by simp [hH, hx], ?_, fun t => by cases t <;> simp [isExecTag]⟩
      intro t c hmem
      simp at hmem
      exact hmem.1

/-- The trace of the `app.js` handler is the sync trace followed by a tail
whose only shell commands are archive builds. -/
theorem appHandler_trace_split (ctx : AppCtx) (env : EnvMap) (nid : String)
    (w : World) (req : Req)
    (hauth : authFailed req.auth ctx.token = false) :
    ∃ tail, (appHandler ctx env nid w req).2 =
        (syncAndResolve (envString env "GIT_REPO_PATH") ctx.branchName w).2 ++ tail ∧
      (∀ t c, Ev.exec t c ∈ tail → t = .tarBuild) ∧
      (∀ t, (tail.filter (isExecTag t)).length ≤ 1) := by
  rcases hx : syncAndResolve (envString env "GIT_REPO_PATH") ctx.branchName w with
    ⟨x, evs0⟩
  cases x with
  | error e =>
    have hH := appHandler_err_form ctx env nid w req e evs0 hauth hx
    refine ⟨[.logError "Error in /src route:" e], by simp [hH, hx], ?_, fun t => by cases t <;> simp [isExecTag]⟩
    intro t c hmem; simp at hmem
  | ok hashOutput =>
    rcases appHandler_ok_form ctx env nid w req hashOutput evs0 hauth hx with
      ⟨hfe, e, hue, hH⟩ | ⟨hfe, hue, o, hbc, hH⟩ | ⟨hfe, hue, e, hbc, hH⟩ |
      ⟨hfe, o, hbc, hH⟩ | ⟨hfe, e, hbc, hH⟩
    · refine ⟨[.fsAccess (pathJoin ctx.tempFolder (appTarName hashOutput nid)) true,
        .fsUnlink (pathJoin ctx.tempFolder (appTarName hashOutput nid)),
        .logError "Error in /src route:" e], by simp [hH, hx], ?_, fun t => by cases t <;> simp [isExecTag]⟩
      intro t c hmem; simp at hmem
    · refine ⟨[.fsAccess (pathJoin ctx.tempFolder (appTarName hashOutput nid)) true,
        .fsUnlink (pathJoin ctx.tempFolder (appTarName hashOutput nid)),
        .exec .tarBuild (appTarCmd (pathJoin ctx.tempFolder (appTarName hashOutput nid))
          (dirname ctx.srcFolder) (basename ctx.srcFolder))],
        by simp [hH, hx], ?_, fun t => by cases t <;> simp [isExecTag]⟩
      intro t c hmem
      simp at hmem
      exact hmem.1
    · refine ⟨[.fsAccess (pathJoin ctx.tempFolder (appTarName hashOutput nid)) true,
        .fsUnlink (pathJoin ctx.tempFolder (appTarName hashOutput nid)),
        .exec .tarBuild (appTarCmd (pathJoin ctx.tempFolder (appTarName hashOutput nid))
          (dirname ctx.srcFolder) (basename ctx.srcFolder)),
        .logError "Error in /src route:" e], by simp [hH, hx], ?_, fun t => by cases t <;> simp [isExecTag]⟩
      intro t c hmem
      simp at hmem
      exact hmem.1
    · refine ⟨[.fsAccess (pathJoin ctx.tempFolder (appTarName hashOutput nid)) false,
        .exec .tarBuild (appTarCmd (pathJoin ctx.tempFolder (appTarName hashOutput nid))
          (dirname ctx.srcFolder) (basename ctx.srcFolder))],
        by simp [hH, hx], ?_, fun t => by cases t <;> simp [isExecTag]⟩
      intro t c hmem
      simp at hmem
      exact hmem.1
    · refine ⟨[.fsAccess (pathJoin ctx.tempFolder (appTarName hashOutput nid)) false,
        .exec .tarBuild (appTarCmd (pathJoin ctx.tempFolder (appTarName hashOutput nid))
          (dirname ctx.srcFolder) (basename ctx.srcFolder)),
        .logError "Error in /src route:" e], by simp [hH, hx], ?_, fun t => by cases t <;> simp [isExecTag]⟩
      intro t c hmem
      simp at hmem
      exact hmem.1

/-- After a successful fetch and status, the sync trace starts with the fetch
command followed by the status command, and contains the pull command for the
configured branch exactly when the up-to-date marker is absent from the
status output. -/
theorem syncAndResolve_pull_facts (repoPath branchName : String) (w : World)
    (o1 st : String)
    (hf : w.run (fetchCmd repoPath) = .ok o1)
    (hst : w.run (statusCmd repoPath) = .ok st) :
    (∃ rest, (syncAndResolve repoPath branchName w).2 =
      .exec .fetch (fetchCmd repoPath) :: .exec .status (statusCmd repoPath) :: rest) ∧
    (syncAndResolve repoPath branchName w).2.filter isPullEv =
      (if jsIncludes st (upToDateMarker branchName) = true then []
       else [.exec .pull (pullCmd repoPath branchName)]) := by
  rcases syncAndResolve_cases repoPath branchName w with
    ⟨e, h1, hs⟩ | ⟨o, e, h1, h2, hs⟩ | ⟨o, st2, h1, h2, h3, ⟨e, h4, hs⟩ | ⟨hh, h4, hs⟩⟩ |
    ⟨o, st2, h1, h2, h3, ⟨e, h5, hs⟩ | ⟨o3, h5, ⟨e, h4, hs⟩ | ⟨hh, h4, hs⟩⟩⟩
  · rw [hf] at h1; cases h1
  · rw [hst] at h2; cases h2
  · rw [hst] at h2; injection h2 with h2e; subst h2e; rw [hs]
    exact ⟨⟨_, rfl⟩, by simp [isPullEv, h3]⟩
  · rw [hst] at h2; injection h2 with h2e; subst h2e; rw [hs]
    exact ⟨⟨_, rfl⟩, by simp [isPullEv, h3]⟩
  · rw [hst] at h2; injection h2 with h2e; subst h2e; rw [hs]
    exact ⟨⟨_, rfl⟩, by simp [isPullEv, h3]⟩
  · rw [hst] at h2; injection h2 with h2e; subst h2e; rw [hs]
    exact ⟨⟨_, rfl⟩, by simp [isPullEv, h3]⟩
  · rw [hst] at h2; injection h2 with h2e; subst h2e; rw [hs]
    exact ⟨⟨_, rfl⟩, by simp [isPullEv, h3]⟩

/-- Events whose only shell commands are builds contribute nothing when
filtering for another step's commands. -/
theorem filter_tag_nil_of_only_build (t : StepTag) (ht : t ≠ .tarBuild)
    (tail : List Ev) (h : ∀ t' c, Ev.exec t' c ∈ tail → t' = .tarBuild) :
    tail.filter (isExecTag t) = [] := by
  rw [List.filter_eq_nil_iff]
  intro a ha
  cases a with
  | exec t' c =>
    have hbuild := h t' c ha
    subst hbuild
    simp [isExecTag]
    intro hEq
    exact ht hEq.symm
  | fsAccess p f => simp [isExecTag]
  | fsUnlink p => simp [isExecTag]
  | log m => simp [isExecTag]
  | logError l d => simp [isExecTag]

/-- Events that never record a build contribute nothing when filtering for
build commands. -/
theorem filter_build_nil_of_no_build (evs : List Ev)
    (h : ∀ t c, Ev.exec t c ∈ evs → t ≠ .tarBuild) :
    evs.filter (isExecTag .tarBuild) = [] := by
  rw [List.filter_eq_nil_iff]
  intro a ha
  cases a with
  | exec t' c =>
    simp [isExecTag]
    intro hEq
    exact h t' c ha hEq
  | fsAccess p f => simp [isExecTag]
  | fsUnlink p => simp [isExecTag]
  | log m => simp [isExecTag]
  | logError l d => simp [isExecTag]

/-- `path.basename` never contains a separator. -/
theorem basename_no_slash (p : String) : ∀ c ∈ (basename p).data, c ≠ '/' := by
  intro c hc
  have hc' : c ∈ ((p.data.reverse.dropWhile (· == '/')).takeWhile (· != '/')).reverse :=
    hc
  rw [List.mem_reverse] at hc'
  have hpred := List.mem_takeWhile_imp hc'
  simpa using hpred

/-- A separator-free string is untouched by tar's leading-slash stripping. -/
theorem dropLeading_eq_self_of_no_slash (s : String)
    (h : ∀ c ∈ s.data, c ≠ '/') :
    s.data.dropWhile (· == '/') = s.data := by
  cases hd : s.data with
  | nil => simp
  | cons a l =>
    have ha : a ≠ '/' := h a (by rw [hd]; exact List.mem_cons_self a l)
    simp [List.dropWhile_cons, ha]

/-- Archiving the base name of a folder yields entry paths rooted at that
base name. -/
theorem tarEntryPath_of_basename (sf rel : String) :
    tarEntryPath (basename sf) rel = basename sf ++ "/" ++ rel := by
  unfold tarEntryPath
  rw [dropLeading_eq_self_of_no_slash (basename sf) (basename_no_slash sf)]

/-- Every archive-build command the `server.js` handler issues has the shape
`cd ${GIT_REPO_PATH} && tar -czf <name> ${SRC_FOLDER}`. -/
theorem serverHandler_build_cmd_shape (cfg : Config) (w : World) (req : Req) :
    ∀ c, Ev.exec .tarBuild c ∈ (serverHandler cfg w req).2 →
      ∃ nm, c = serverTarCmd cfg.gitRepoPath nm cfg.srcFolder := by
  intro c hmem
  cases hauth : authFailed req.auth cfg.token with
  | true => simp [serverHandler, hauth] at hmem
  | false =>
    rcases hx : syncAndResolve cfg.gitRepoPath cfg.branchName w with ⟨x, evs0⟩
    have hnb := syncAndResolve_no_build cfg.gitRepoPath cfg.branchName w .tarBuild c
    rw [hx] at hnb
    cases x with
    | error e =>
      have hH := serverHandler_err_form cfg w req e evs0 hauth hx
      rw [hH] at hmem
      simp at hmem
      exact absurd rfl (hnb hmem)
    | ok hashOutput =>
      rcases serverHandler_ok_form cfg w req hashOutput evs0 hauth hx with
        ⟨hfe, hH⟩ | ⟨hfe, o, hbc, hH⟩ | ⟨hfe, e, hbc, hH⟩ <;>
      · rw [hH] at hmem
        simp at hmem
        first
        | exact absurd rfl (hnb hmem)
        | (rcases hmem with hmem | rfl
           · exact absurd rfl (hnb hmem)
           · exact ⟨serverTarName hashOutput, rfl⟩)

/-- Every archive-build command the `app.js` handler issues has the shape
`tar -czf <path> -C ${path.dirname(SRC_FOLDER)} ${path.basename(SRC_FOLDER)}`. -/
theorem appHandler_build_cmd_shape (ctx : AppCtx) (env : EnvMap) (nid : String)
    (w : World) (req : Req) :
    ∀ c, Ev.exec .tarBuild c ∈ (appHandler ctx env nid w req).2 →
      ∃ tp, c = appTarCmd tp (dirname ctx.srcFolder) (basename ctx.srcFolder) := by
  intro c hmem
  cases hauth : authFailed req.auth ctx.token with
  | true => simp [appHandler, hauth] at hmem
  | false =>
    rcases hx : syncAndResolve (envString env "GIT_REPO_PATH") ctx.branchName w with
      ⟨x, evs0⟩
    have hnb := syncAndResolve_no_build (envString env "GIT_REPO_PATH")
      ctx.branchName w .tarBuild c
    rw [hx] at hnb
    cases x with
    | error e =>
      have hH := appHandler_err_form ctx env nid w req e evs0 hauth hx
      rw [hH] at hmem
      simp at hmem
      exact absurd rfl (hnb hmem)
    | ok hashOutput =>
      rcases appHandler_ok_form ctx env nid w req hashOutput evs0 hauth hx with
        ⟨hfe, e, hue, hH⟩ | ⟨hfe, hue, o, hbc, hH⟩ | ⟨hfe, hue, e, hbc, hH⟩ |
        ⟨hfe, o, hbc, hH⟩ | ⟨hfe, e, hbc, hH⟩ <;>
      · rw [hH] at hmem
        simp at hmem
        first
        | exact absurd rfl (hnb hmem)
        | (rcases hmem with hmem | rfl
           · exact absurd rfl (hnb hmem)
           · exact ⟨pathJoin ctx.tempFolder (appTarName hashOutput nid), rfl⟩)

/-! ### Claim theorems -/

/-- C4: for every authenticated request, in both variants, the handler first
issues the fetch command and then the status command, and the trace contains
the pull command for the configured branch exactly when the status output does
not contain `Your branch is up to date with 'origin/<BRANCH_NAME>'`; when the
marker is present no pull is issued. -/
theorem c4_pull_iff_marker_absent
    (cfg : Config) (ctx : AppCtx) (env : EnvMap) (nid : String)
    (wS wA : World) (req : Req) (o1 st o1A stA : String)
    (hauthS : authFailed req.auth cfg.token = false)
    (hauthA : authFailed req.auth ctx.token = false)
    (hfS : wS.run (fetchCmd cfg.gitRepoPath) = .ok o1)
    (hstS : wS.run (statusCmd cfg.gitRepoPath) = .ok st)
    (hfA : wA.run (fetchCmd (envString env "GIT_REPO_PATH")) = .ok o1A)
    (hstA : wA.run (statusCmd (envString env "GIT_REPO_PATH")) = .ok stA) :
    ((∃ rest, (serverHandler cfg wS req).2 =
        .exec .fetch (fetchCmd cfg.gitRepoPath) ::
        .exec .status (statusCmd cfg.gitRepoPath) :: rest) ∧
      (serverHandler cfg wS req).2.filter isPullEv =
        (if jsIncludes st (upToDateMarker cfg.branchName) = true then []
         else [.exec .pull (pullCmd cfg.gitRepoPath cfg.branchName)])) ∧
    ((∃ rest, (appHandler ctx env nid wA req).2 =
        .exec .fetch (fetchCmd (envString env "GIT_REPO_PATH")) ::
        .exec .status (statusCmd (envString env "GIT_REPO_PATH")) :: rest) ∧
      (appHandler ctx env nid wA req).2.filter isPullEv =
        (if jsIncludes stA (upToDateMarker ctx.branchName) = true then []
         else [.exec .pull (pullCmd (envString env "GIT_REPO_PATH")
                 ctx.branchName)])) := by
  obtain ⟨⟨restS, hrS⟩, hfltS⟩ :=
    syncAndResolve_pull_facts cfg.gitRepoPath cfg.branchName wS o1 st hfS hstS
  obtain ⟨tailS, htS, honlyS, -⟩ := serverHandler_trace_split cfg wS req hauthS
  obtain ⟨⟨restA, hrA⟩, hfltA⟩ :=
    syncAndResolve_pull_facts (envString env "GIT_REPO_PATH") ctx.branchName wA
      o1A stA hfA hstA
  obtain ⟨tailA, htA, honlyA, -⟩ := appHandler_trace_split ctx env nid wA req hauthA
  refine ⟨⟨⟨restS ++ tailS, ?_⟩, ?_⟩, ⟨⟨restA ++ tailA, ?_⟩, ?_⟩⟩
  · rw [htS, hrS]; simp
  · rw [htS, List.filter_append, hfltS,
      filter_pull_nil_of_only_build tailS honlyS]
    simp
  · rw [htA, hrA]; simp
  · rw [htA, List.filter_append, hfltA,
      filter_pull_nil_of_only_build tailA honlyA]
    simp

/-- Witness for C4: a concrete up-to-date working copy; the trace starts with
fetch then status, and the marker being present means no pull is filtered out
of the trace. -/
theorem c4_witness :
    authFailed reqT.auth cfgT.token = false ∧
    wT.run (fetchCmd cfgT.gitRepoPath) = .ok "" ∧
    wT.run (statusCmd cfgT.gitRepoPath) = .ok okStatus ∧
    (serverHandler cfgT wT reqT).2.filter isPullEv =
      (if jsIncludes okStatus (upToDateMarker cfgT.branchName) = true then []
       else [.exec .pull (pullCmd cfgT.gitRepoPath cfgT.branchName)]) := by
  refine ⟨by decide, by decide, by decide, ?_⟩
  exact ((c4_pull_iff_marker_absent cfgT ctxT envFull "n0" wT wT reqT
    "" okStatus "" okStatus (by decide) (by decide) (by decide) (by decide)
    (by decide) (by decide)).1).2

/-- C1: a `GET /src` request whose `auth` header is absent or not exactly
string-equal to the configured TOKEN is answered `401` with body
`Unauthorized` and an empty side-effect trace — no fetch, status, pull,
revision-resolution, filesystem or archive-build command — in both the
`server.js` and the `app.js` variant. -/
theorem c1_unauthorized_no_side_effects
    (cfg : Config) (ctx : AppCtx) (env : EnvMap) (nid : String) (w : World)
    (req : Req)
    (hS : req.auth ≠ some cfg.token) (hA : req.auth ≠ some ctx.token) :
    serverHandler cfg w req = (.sent 401 "Unauthorized", []) ∧
    appHandler ctx env nid w req = (.sent 401 "Unauthorized", []) := by
  constructor
  · simp [serverHandler, authFailed_of_ne hS]
  · simp [appHandler, authFailed_of_ne hA]

/-- Witness for C1: a concrete request with a mismatched token. -/
theorem c1_witness :
    (some "wrong" : Option String) ≠ some cfgT.token ∧
    (some "wrong" : Option String) ≠ some ctxT.token ∧
    serverHandler cfgT wT ⟨some "wrong"⟩ = (.sent 401 "Unauthorized", []) ∧
    appHandler ctxT envFull "n0" wT ⟨some "wrong"⟩ =
      (.sent 401 "Unauthorized", []) := by
  refine ⟨by decide, by decide, ?_, ?_⟩
  · exact (c1_unauthorized_no_side_effects cfgT ctxT envFull "n0" wT
      ⟨some "wrong"⟩ (by decide) (by decide)).1
  · exact (c1_unauthorized_no_side_effects cfgT ctxT envFull "n0" wT
      ⟨some "wrong"⟩ (by decide) (by decide)).2

/-- C7 counterexample: under the schedule where both requests pass the
`fs.access` existence check before either builds — request 1 checks,
request 2 checks, request 1 builds, request 2 builds — the builder is
invoked twice for the same new revision, both requests complete, and the
claimed "exactly one archive-build invocation" is false. -/
theorem c7_counterexample :
    (runSched initRace [true, false, true, false]).builds = 2 ∧
    (runSched initRace [true, false, true, false]).pc1 = 2 ∧
    (runSched initRace [true, false, true, false]).pc2 = 2 ∧
    ¬ (runSched initRace [true, false, true, false]).builds = 1 := by decide

/-- C7 amended: the code has no per-revision serialization, so two
concurrent first-requests may both observe a miss and invoke the builder
twice; when the two requests do not interleave (either request's
check-then-build section runs to completion before the other's check),
exactly one build occurs and both requests complete against the same
keyed path. -/
theorem c7_amended_serialized :
    ((runSched initRace [true, true, false, false]).builds = 1 ∧
     (runSched initRace [true, true, false, false]).pc1 = 2 ∧
     (runSched initRace [true, true, false, false]).pc2 = 2 ∧
     (runSched initRace [true, true, false, false]).tarExists = true) ∧
    ((runSched initRace [false, false, true, true]).builds = 1 ∧
     (runSched initRace [false, false, true, true]).pc1 = 2 ∧
     (runSched initRace [false, false, true, true]).pc2 = 2 ∧
     (runSched initRace [false, false, true, true]).tarExists = true) := by
  decide

/-- C8: when the working copy is unreachable so that the initial
`git fetch` fails, both variants answer `500` with body
`Internal Server Error`, having issued exactly the fetch command and a
server-side error log: no archive build and no filesystem mutation
happens, so the archive store is unchanged. -/
theorem c8_fetch_failure
    (cfg : Config) (ctx : AppCtx) (env : EnvMap) (nid : String) (w : World)
    (req : Req) (e eA : String)
    (hauthS : authFailed req.auth cfg.token = false)
    (hauthA : authFailed req.auth ctx.token = false)
    (hfS : w.run (fetchCmd cfg.gitRepoPath) = .err e)
    (hfA : w.run (fetchCmd (envString env "GIT_REPO_PATH")) = .err eA) :
    serverHandler cfg w req =
      (.sent 500 "Internal Server Error",
        [.exec .fetch (fetchCmd cfg.gitRepoPath),
         .logError "Error in /src route:" e]) ∧
    appHandler ctx env nid w req =
      (.sent 500 "Internal Server Error",
        [.exec .fetch (fetchCmd (envString env "GIT_REPO_PATH")),
         .logError "Error in /src route:" eA]) ∧
    (∀ c, Ev.exec .tarBuild c ∉ (serverHandler cfg w req).2) ∧
    (∀ c, Ev.exec .tarBuild c ∉ (appHandler ctx env nid w req).2) ∧
    (∀ p, Ev.fsUnlink p ∉ (appHandler ctx env nid w req).2) := by
  have hsS : syncAndResolve cfg.gitRepoPath cfg.branchName w =
      (.error e, [.exec .fetch (fetchCmd cfg.gitRepoPath)]) := by
    simp [syncAndResolve, hfS]
  have hsA : syncAndResolve (envString env "GIT_REPO_PATH") ctx.branchName w =
      (.error eA, [.exec .fetch (fetchCmd (envString env "GIT_REPO_PATH"))]) := by
    simp [syncAndResolve, hfA]
  have hS : serverHandler cfg w req =
      (.sent 500 "Internal Server Error",
        [.exec .fetch (fetchCmd cfg.gitRepoPath),
         .logError "Error in /src route:" e]) := by
    simp [serverHandler, hauthS, hsS]
  have hA : appHandler ctx env nid w req =
      (.sent 500 "Internal Server Error",
        [.exec .fetch (fetchCmd (envString env "GIT_REPO_PATH")),
         .logError "Error in /src route:" eA]) := by
    simp [appHandler, hauthA, hsA]
  refine ⟨hS, hA, ?_, ?_, ?_⟩
  · intro c; rw [hS]; simp
  · intro c; rw [hA]; simp
  · intro p; rw [hA]; simp

/-- Witness for C8: a concrete world whose commands all fail. -/
theorem c8_witness :
    authFailed reqT.auth cfgT.token = false ∧
    authFailed reqT.auth ctxT.token = false ∧
    wFetchFail.run (fetchCmd cfgT.gitRepoPath) =
      .err "fatal: could not read from remote repository" ∧
    wFetchFail.run (fetchCmd (envString envFull "GIT_REPO_PATH")) =
      .err "fatal: could not read from remote repository" ∧
    serverHandler cfgT wFetchFail reqT =
      (.sent 500 "Internal Server Error",
        [.exec .fetch (fetchCmd cfgT.gitRepoPath),
         .logError "Error in /src route:"
           "fatal: could not read from remote repository"]) := by
  refine ⟨by decide, by decide, by decide, by decide, ?_⟩
  exact (c8_fetch_failure cfgT ctxT envFull "n0" wFetchFail reqT
    "fatal: could not read from remote repository"
    "fatal: could not read from remote repository"
    (by decide) (by decide) (by decide) (by decide)).1

/-- C10: in the `app.js` variant only `GIT_REPO_PATH` is re-read from the
process environment at request time — two request-time environments that
agree on `GIT_REPO_PATH` (however much `BRANCH_NAME`, `SRC_FOLDER` or
`TOKEN` were mutated) produce identical behaviour, while mutating
`GIT_REPO_PATH` observably changes which repository subsequent requests
operate on; in the `server.js` variant all four values are captured at
startup and the request-time environment is never consulted. -/
theorem c10_env_rebinding
    (tempFolder nid : String) (startupEnv e e' : EnvMap) (w : World) (req : Req)
    (h : e "GIT_REPO_PATH" = e' "GIT_REPO_PATH") :
    appRequest tempFolder startupEnv e nid w req =
      appRequest tempFolder startupEnv e' nid w req ∧
    (∀ f f' : EnvMap,
      serverRequest startupEnv f w req = serverRequest startupEnv f' w req) ∧
    appRequest "/tmp" envFull envFull "n0" wT reqT ≠
      appRequest "/tmp" envFull envRepoB "n0" wT reqT := by
  have he : envString e "GIT_REPO_PATH" = envString e' "GIT_REPO_PATH" := by
    unfold envString; rw [h]
  refine ⟨?_, fun f f' => rfl, by decide⟩
  cases h0 : appModuleInit tempFolder startupEnv with
  | none => simp [appRequest, h0]
  | some ctx =>
    have harg : appHandler ctx e nid w req = appHandler ctx e' nid w req := by
      simp only [appHandler, he]
    simp [appRequest, h0, harg]

/-- C3: in the persistent-keyed variant the archive path is
`path.join(GIT_REPO_PATH, "src-" + revision + ".tar.gz")`, the revision being
the truncated trimmed HEAD hash and nothing else; when a file already exists
at that path the handler issues no archive-build command and serves that very
file, so a repeated request for the same revision never invokes the builder
again. -/
theorem c3_cache_hit_no_build
    (cfg : Config) (w : World) (req : Req) (hashOutput : String) (evs0 : List Ev)
    (hauth : authFailed req.auth cfg.token = false)
    (hsync : syncAndResolve cfg.gitRepoPath cfg.branchName w =
      (.ok hashOutput, evs0))
    (hhit : w.fexists (pathJoin cfg.gitRepoPath (serverTarName hashOutput)) = true) :
    serverTarName hashOutput =
      "src-" ++ jsSubstring0 (jsTrim hashOutput) 7 ++ ".tar.gz" ∧
    serverHandler cfg w req =
      (.download (pathJoin cfg.gitRepoPath (serverTarName hashOutput)),
        evs0 ++
          [.fsAccess (pathJoin cfg.gitRepoPath (serverTarName hashOutput)) true,
           .log "Tar file already exists, serving..."]) ∧
    (∀ c, Ev.exec .tarBuild c ∉ (serverHandler cfg w req).2) := by
  have hS : serverHandler cfg w req =
      (.download (pathJoin cfg.gitRepoPath (serverTarName hashOutput)),
        evs0 ++
          [.fsAccess (pathJoin cfg.gitRepoPath (serverTarName hashOutput)) true,
           .log "Tar file already exists, serving..."]) := by
    simp [serverHandler, hauth, hsync, hhit]
  refine ⟨rfl, hS, ?_⟩
  intro c hmem
  rw [hS] at hmem
  simp at hmem
  have hnb := syncAndResolve_no_build cfg.gitRepoPath cfg.branchName w .tarBuild c
  rw [hsync] at hnb
  exact hnb hmem rfl

/-- Witness for C3: a concrete world where the keyed archive already exists. -/
theorem c3_witness :
    authFailed reqT.auth cfgT.token = false ∧
    syncAndResolve cfgT.gitRepoPath cfgT.branchName wHit =
      (.ok hashT,
        [.exec .fetch (fetchCmd "/repo"), .exec .status (statusCmd "/repo"),
         .exec .revParse (revParseCmd "/repo")]) ∧
    wHit.fexists (pathJoin cfgT.gitRepoPath (serverTarName hashT)) = true ∧
    serverHandler cfgT wHit reqT =
      (.download (pathJoin cfgT.gitRepoPath (serverTarName hashT)),
        [.exec .fetch (fetchCmd "/repo"), .exec .status (statusCmd "/repo"),
         .exec .revParse (revParseCmd "/repo")] ++
          [.fsAccess (pathJoin cfgT.gitRepoPath (serverTarName hashT)) true,
           .log "Tar file already exists, serving..."]) := by
  refine ⟨by decide, by decide, by decide, ?_⟩
  exact (c3_cache_hit_no_build cfgT wHit reqT hashT
    [.exec .fetch (fetchCmd "/repo"), .exec .status (statusCmd "/repo"),
     .exec .revParse (revParseCmd "/repo")]
    (by decide) (by decide) (by decide)).2.1

/-- C6: the revision used as the archive key equals
`hashOutput.trim().substring(0, 7)` — the first 7 characters of the
whitespace-trimmed HEAD identifier returned by `git rev-parse HEAD` — in both
variants, and the truncation is fixed-length: the key never exceeds 7
characters. -/
theorem c6_revision_key
    (cfg : Config) (ctx : AppCtx) (env : EnvMap) (nid : String)
    (wS wA : World) (req : Req) (hashOutput hashOutputA oA : String)
    (evs0 evsA : List Ev)
    (hauthS : authFailed req.auth cfg.token = false)
    (hauthA : authFailed req.auth ctx.token = false)
    (hsyncS : syncAndResolve cfg.gitRepoPath cfg.branchName wS =
      (.ok hashOutput, evs0))
    (hsyncA : syncAndResolve (envString env "GIT_REPO_PATH") ctx.branchName wA =
      (.ok hashOutputA, evsA))
    (hhitS : wS.fexists (pathJoin cfg.gitRepoPath (serverTarName hashOutput)) = true)
    (hmissA : wA.fexists (pathJoin ctx.tempFolder (appTarName hashOutputA nid)) = false)
    (htarA : wA.run (appTarCmd (pathJoin ctx.tempFolder (appTarName hashOutputA nid))
      (dirname ctx.srcFolder) (basename ctx.srcFolder)) = .ok oA) :
    (serverHandler cfg wS req).1 =
      .download (pathJoin cfg.gitRepoPath
        ("src-" ++ jsSubstring0 (jsTrim hashOutput) 7 ++ ".tar.gz")) ∧
    (appHandler ctx env nid wA req).1 =
      .download (pathJoin ctx.tempFolder
        ("src-" ++ jsSubstring0 (jsTrim hashOutputA) 7 ++ "-" ++ nid ++ ".tar.gz")) ∧
    (jsSubstring0 (jsTrim hashOutput) 7).data.length ≤ 7 := by
  refine ⟨?_, ?_, ?_⟩
  · have h1 : (serverHandler cfg wS req).1 =
        .download (pathJoin cfg.gitRepoPath (serverTarName hashOutput)) := by
      simp [serverHandler, hauthS, hsyncS, hhitS]
    simpa [serverTarName, shortHash] using h1
  · have h2 : (appHandler ctx env nid wA req).1 =
        .download (pathJoin ctx.tempFolder (appTarName hashOutputA nid)) := by
      simp [appHandler, appTarStep, hauthA, hsyncA, hmissA, htarA]
    simpa [appTarName, shortHash] using h2
  · simp only [jsSubstring0, List.length_take]
    exact Nat.min_le_left _ _

/-- Witness for C6: concrete runs of both variants against the recorded
40-character hash output. -/
theorem c6_witness :
    syncAndResolve cfgT.gitRepoPath cfgT.branchName wHit =
      (.ok hashT,
        [.exec .fetch (fetchCmd "/repo"), .exec .status (statusCmd "/repo"),
         .exec .revParse (revParseCmd "/repo")]) ∧
    syncAndResolve (envString envFull "GIT_REPO_PATH") ctxT.branchName wT =
      (.ok hashT,
        [.exec .fetch (fetchCmd "/repo"), .exec .status (statusCmd "/repo"),
         .exec .revParse (revParseCmd "/repo")]) ∧
    (serverHandler cfgT wHit reqT).1 =
      .download (pathJoin cfgT.gitRepoPath
        ("src-" ++ jsSubstring0 (jsTrim hashT) 7 ++ ".tar.gz")) ∧
    (appHandler ctxT envFull "n0" wT reqT).1 =
      .download (pathJoin ctxT.tempFolder
        ("src-" ++ jsSubstring0 (jsTrim hashT) 7 ++ "-" ++ "n0" ++ ".tar.gz")) := by
  refine ⟨by decide, by decide, ?_, ?_⟩
  · exact (c6_revision_key cfgT ctxT envFull "n0" wHit wT reqT hashT hashT ""
      [.exec .fetch (fetchCmd "/repo"), .exec .status (statusCmd "/repo"),
       .exec .revParse (revParseCmd "/repo")]
      [.exec .fetch (fetchCmd "/repo"), .exec .status (statusCmd "/repo"),
       .exec .revParse (revParseCmd "/repo")]
      (by decide) (by decide) (by decide) (by decide) (by decide) (by decide)
      (by decide)).1
  · exact (c6_revision_key cfgT ctxT envFull "n0" wHit wT reqT hashT hashT ""
      [.exec .fetch (fetchCmd "/repo"), .exec .status (statusCmd "/repo"),
       .exec .revParse (revParseCmd "/repo")]
      [.exec .fetch (fetchCmd "/repo"), .exec .status (statusCmd "/repo"),
       .exec .revParse (revParseCmd "/repo")]
      (by decide) (by decide) (by decide) (by decide) (by decide) (by decide)
      (by decide)).2.1

/-- C5: for every authenticated request, in both variants: if any issued
step command — fetch, status, pull, revision resolution or archive build —
fails, the response is the fixed `500` with body `Internal Server Error` and
the underlying detail appears only in a server-side error-log event; every
non-download response carries that fixed body, never the detail; and no
step's command is issued more than once within the request (no retry). -/
theorem c5_failure_handling
    (cfg : Config) (ctx : AppCtx) (env : EnvMap) (nid : String)
    (wS wA : World) (req : Req)
    (hauthS : authFailed req.auth cfg.token = false)
    (hauthA : authFailed req.auth ctx.token = false) :
    (someExecFailed wS (serverHandler cfg wS req).2 →
      (serverHandler cfg wS req).1 = .sent 500 "Internal Server Error" ∧
      ∃ d, Ev.logError "Error in /src route:" d ∈ (serverHandler cfg wS req).2) ∧
    (∀ s b, (serverHandler cfg wS req).1 = .sent s b →
      s = 500 ∧ b = "Internal Server Error") ∧
    noRetry (serverHandler cfg wS req).2 ∧
    (someExecFailed wA (appHandler ctx env nid wA req).2 →
      (appHandler ctx env nid wA req).1 = .sent 500 "Internal Server Error" ∧
      ∃ d, Ev.logError "Error in /src route:" d ∈
        (appHandler ctx env nid wA req).2) ∧
    (∀ s b, (appHandler ctx env nid wA req).1 = .sent s b →
      s = 500 ∧ b = "Internal Server Error") ∧
    noRetry (appHandler ctx env nid wA req).2 := by
  obtain ⟨tailS, htS, honlyS, hcntS⟩ := serverHandler_trace_split cfg wS req hauthS
  obtain ⟨tailA, htA, honlyA, hcntA⟩ :=
    appHandler_trace_split ctx env nid wA req hauthA
  have hnrS : noRetry (serverHandler cfg wS req).2 := by
    intro t
    rw [htS, List.filter_append, List.length_append]
    by_cases ht : t = .tarBuild
    · subst ht
      rw [filter_build_nil_of_no_build _
        (syncAndResolve_no_build cfg.gitRepoPath cfg.branchName wS)]
      simpa using hcntS .tarBuild
    · rw [filter_tag_nil_of_only_build t ht tailS honlyS]
      simpa using syncAndResolve_noRetry cfg.gitRepoPath cfg.branchName wS t
  have hnrA : noRetry (appHandler ctx env nid wA req).2 := by
    intro t
    rw [htA, List.filter_append, List.length_append]
    by_cases ht : t = .tarBuild
    · subst ht
      rw [filter_build_nil_of_no_build _
        (syncAndResolve_no_build (envString env "GIT_REPO_PATH") ctx.branchName wA)]
      simpa using hcntA .tarBuild
    · rw [filter_tag_nil_of_only_build t ht tailA honlyA]
      simpa using
        syncAndResolve_noRetry (envString env "GIT_REPO_PATH") ctx.branchName wA t
  have hmainS : (someExecFailed wS (serverHandler cfg wS req).2 →
      (serverHandler cfg wS req).1 = .sent 500 "Internal Server Error" ∧
      ∃ d, Ev.logError "Error in /src route:" d ∈ (serverHandler cfg wS req).2) ∧
      (∀ s b, (serverHandler cfg wS req).1 = .sent s b →
        s = 500 ∧ b = "Internal Server Error") := by
    rcases hx : syncAndResolve cfg.gitRepoPath cfg.branchName wS with ⟨x, evs0⟩
    cases x with
    | error e =>
      have hH := serverHandler_err_form cfg wS req e evs0 hauthS hx
      constructor
      · intro _
        refine ⟨by rw [hH], e, ?_⟩
        rw [hH]; simp
      · intro s b h
        rw [hH] at h
        simp at h
        exact ⟨h.1.symm, h.2.symm⟩
    | ok hashOutput =>
      have hall := syncAndResolve_ok_all_ok cfg.gitRepoPath cfg.branchName wS
        hashOutput (by rw [hx])
      rw [hx] at hall
      rcases serverHandler_ok_form cfg wS req hashOutput evs0 hauthS hx with
        ⟨hfe, hH⟩ | ⟨hfe, o, hbc, hH⟩ | ⟨hfe, e, hbc, hH⟩
      · constructor
        · rintro ⟨t, c, e', hmem, hrun⟩
          rw [hH] at hmem
          simp at hmem
          obtain ⟨o', ho'⟩ := hall t c hmem
          rw [ho'] at hrun; cases hrun
        · intro s b h
          rw [hH] at h
          simp at h
      · constructor
        · rintro ⟨t, c, e', hmem, hrun⟩
          rw [hH] at hmem
          simp at hmem
          rcases hmem with hmem | ⟨-, rfl⟩
          · obtain ⟨o', ho'⟩ := hall t c hmem
            rw [ho'] at hrun; cases hrun
          · rw [hbc] at hrun; cases hrun
        · intro s b h
          rw [hH] at h
          simp at h
      · constructor
        · intro _
          refine ⟨by rw [hH], e, ?_⟩
          rw [hH]; simp
        · intro s b h
          rw [hH] at h
          simp at h
          exact ⟨h.1.symm, h.2.symm⟩
  have hmainA : (someExecFailed wA (appHandler ctx env nid wA req).2 →
      (appHandler ctx env nid wA req).1 = .sent 500 "Internal Server Error" ∧
      ∃ d, Ev.logError "Error in /src route:" d ∈
        (appHandler ctx env nid wA req).2) ∧
      (∀ s b, (appHandler ctx env nid wA req).1 = .sent s b →
        s = 500 ∧ b = "Internal Server Error") := by
    rcases hx : syncAndResolve (envString env "GIT_REPO_PATH") ctx.branchName wA with
      ⟨x, evs0⟩
    cases x with
    | error e =>
      have hH := appHandler_err_form ctx env nid wA req e evs0 hauthA hx
      constructor
      · intro _
        refine ⟨by rw [hH], e, ?_⟩
        rw [hH]; simp
      · intro s b h
        rw [hH] at h
        simp at h
        exact ⟨h.1.symm, h.2.symm⟩
    | ok hashOutput =>
      have hall := syncAndResolve_ok_all_ok (envString env "GIT_REPO_PATH")
        ctx.branchName wA hashOutput (by rw [hx])
      rw [hx] at hall
      rcases appHandler_ok_form ctx env nid wA req hashOutput evs0 hauthA hx with
        ⟨hfe, e, hue, hH⟩ | ⟨hfe, hue, o, hbc, hH⟩ | ⟨hfe, hue, e, hbc, hH⟩ |
        ⟨hfe, o, hbc, hH⟩ | ⟨hfe, e, hbc, hH⟩
      · constructor
        · intro _
          refine ⟨by rw [hH], e, ?_⟩
          rw [hH]; simp
        · intro s b h
          rw [hH] at h
          simp at h
          exact ⟨h.1.symm, h.2.symm⟩
      · constructor
        · rintro ⟨t, c, e', hmem, hrun⟩
          rw [hH] at hmem
          simp at hmem
          rcases hmem with hmem | ⟨-, rfl⟩
          · obtain ⟨o', ho'⟩ := hall t c hmem
            rw [ho'] at hrun; cases hrun
          · rw [hbc] at hrun; cases hrun
        · intro s b h
          rw [hH] at h
          simp at h
      · constructor
        · intro _
          refine ⟨by rw [hH], e, ?_⟩
          rw [hH]; simp
        · intro s b h
          rw [hH] at h
          simp at h
          exact ⟨h.1.symm, h.2.symm⟩
      · constructor
        · rintro ⟨t, c, e', hmem, hrun⟩
          rw [hH] at hmem
          simp at hmem
          rcases hmem with hmem | ⟨-, rfl⟩
          · obtain ⟨o', ho'⟩ := hall t c hmem
            rw [ho'] at hrun; cases hrun
          · rw [hbc] at hrun; cases hrun
        · intro s b h
          rw [hH] at h
          simp at h
      · constructor
        · intro _
          refine ⟨by rw [hH], e, ?_⟩
          rw [hH]; simp
        · intro s b h
          rw [hH] at h
          simp at h
          exact ⟨h.1.symm, h.2.symm⟩
  exact ⟨hmainS.1, hmainS.2, hnrS, hmainA.1, hmainA.2, hnrA⟩

/-- Witness for C5: the all-failing world at the configured fixtures. -/
theorem c5_witness :
    authFailed reqT.auth cfgT.token = false ∧
    authFailed reqT.auth ctxT.token = false ∧
    noRetry (serverHandler cfgT wFetchFail reqT).2 ∧
    (someExecFailed wFetchFail (serverHandler cfgT wFetchFail reqT).2 →
      (serverHandler cfgT wFetchFail reqT).1 = .sent 500 "Internal Server Error" ∧
      ∃ d, Ev.logError "Error in /src route:" d ∈
        (serverHandler cfgT wFetchFail reqT).2) := by
  refine ⟨by decide, by decide, ?_, ?_⟩
  · exact (c5_failure_handling cfgT ctxT envFull "n0" wFetchFail wFetchFail reqT
      (by decide) (by decide)).2.2.1
  · exact (c5_failure_handling cfgT ctxT envFull "n0" wFetchFail wFetchFail reqT
      (by decide) (by decide)).1

/-- C2 counterexample: with `SRC_FOLDER = "home/user/src"`, the `server.js`
variant's build command archives the folder verbatim from inside the
repository, so the archive's entry for `test.txt` is
`home/user/src/test.txt`: it carries ancestor directory segments and does not
begin with the base name `src` — refuting "this holds in both server
variants". -/
theorem c2_counterexample :
    Ev.exec .tarBuild "cd /repo && tar -czf src-1234567.tar.gz home/user/src" ∈
      (serverHandler cfgDeep wT reqT).2 ∧
    basename cfgDeep.srcFolder = "src" ∧
    tarEntryPath cfgDeep.srcFolder "test.txt" = "home/user/src/test.txt" ∧
    ¬ ("src/".data <+: (tarEntryPath cfgDeep.srcFolder "test.txt").data) := by
  decide

/-- C2 amended: in the `app.js` variant every archive-build command is rooted
at the parent directory of `SRC_FOLDER` (`-C path.dirname(SRC_FOLDER)`) and
archives only `path.basename(SRC_FOLDER)`, so every entry path begins with
the base name followed by a separator and the base name itself contains no
separator — no ancestor directory segments.  In the `server.js` variant the
build instead runs inside `GIT_REPO_PATH` and archives `SRC_FOLDER` verbatim,
so its entry paths begin with `SRC_FOLDER` as written, which equals the base
name only when `SRC_FOLDER` is a bare folder name. -/
theorem c2_amended_tar_rooting
    (cfg : Config) (ctx : AppCtx) (env : EnvMap) (nid : String)
    (wS wA : World) (req : Req) :
    (∀ c, Ev.exec .tarBuild c ∈ (appHandler ctx env nid wA req).2 →
      ∃ tp, c = "tar -czf " ++ tp ++ " -C " ++ dirname ctx.srcFolder ++ " " ++
        basename ctx.srcFolder) ∧
    (∀ rel, tarEntryPath (basename ctx.srcFolder) rel =
      basename ctx.srcFolder ++ "/" ++ rel) ∧
    (∀ ch ∈ (basename ctx.srcFolder).data, ch ≠ '/') ∧
    (∀ c, Ev.exec .tarBuild c ∈ (serverHandler cfg wS req).2 →
      ∃ nm, c = "cd " ++ cfg.gitRepoPath ++ " && tar -czf " ++ nm ++ " " ++
        cfg.srcFolder) := by
  refine ⟨?_, fun rel => tarEntryPath_of_basename ctx.srcFolder rel,
    basename_no_slash ctx.srcFolder, ?_⟩
  · intro c hmem
    obtain ⟨tp, htp⟩ := appHandler_build_cmd_shape ctx env nid wA req c hmem
    exact ⟨tp, by rw [htp]; rfl⟩
  · intro c hmem
    obtain ⟨nm, hnm⟩ := serverHandler_build_cmd_shape cfg wS req c hmem
    exact ⟨nm, by rw [hnm]; rfl⟩

/-- Witness for C2 (amended): the concrete `app.js` build command issued for
`SRC_FOLDER = "src"` is rooted at `.` archiving `src`. -/
theorem c2_witness :
    Ev.exec .tarBuild "tar -czf /tmp/src-1234567-n0.tar.gz -C . src" ∈
      (appHandler ctxT envFull "n0" wT reqT).2 ∧
    (∃ tp, "tar -czf /tmp/src-1234567-n0.tar.gz -C . src" =
      "tar -czf " ++ tp ++ " -C " ++ dirname ctxT.srcFolder ++ " " ++
        basename ctxT.srcFolder) := by
  refine ⟨by decide, ?_⟩
  exact (c2_amended_tar_rooting cfgT ctxT envFull "n0" wT wT reqT).1
    "tar -czf /tmp/src-1234567-n0.tar.gz -C . src" (by decide)

/-- C9: every shell command the handlers execute is built by verbatim string
interpolation of the raw configuration values — on a run whose status output
lacks the up-to-date marker, every one of the five commands (fetch, status,
pull, rev-parse, tar) appears in the trace, and each executed command string
is literally the concatenation of the template text with the raw
`GIT_REPO_PATH`, `BRANCH_NAME`, `SRC_FOLDER` and derived archive path, with
no quoting, escaping or sanitization, so a value containing spaces or shell
metacharacters changes the command that runs. -/
theorem c9_verbatim_interpolation
    (cfg : Config) (ctx : AppCtx) (env : EnvMap) (nid : String)
    (wS wA : World) (req : Req)
    (o1 st oP hashOutput o1A stA oPA hashOutputA oS oA : String)
    (hauthS : authFailed req.auth cfg.token = false)
    (hauthA : authFailed req.auth ctx.token = false)
    (hfS : wS.run ("git -C " ++ cfg.gitRepoPath ++ " fetch origin") = .ok o1)
    (hstS : wS.run ("git -C " ++ cfg.gitRepoPath ++ " status") = .ok st)
    (hmkS : jsIncludes st (upToDateMarker cfg.branchName) = false)
    (hplS : wS.run ("git -C " ++ cfg.gitRepoPath ++ " pull origin " ++
      cfg.branchName) = .ok oP)
    (hrvS : wS.run ("git -C " ++ cfg.gitRepoPath ++ " rev-parse HEAD") =
      .ok hashOutput)
    (hmissS : wS.fexists (pathJoin cfg.gitRepoPath (serverTarName hashOutput)) =
      false)
    (hbS : wS.run ("cd " ++ cfg.gitRepoPath ++ " && tar -czf " ++
      serverTarName hashOutput ++ " " ++ cfg.srcFolder) = .ok oS)
    (hfA : wA.run ("git -C " ++ envString env "GIT_REPO_PATH" ++ " fetch origin") =
      .ok o1A)
    (hstA : wA.run ("git -C " ++ envString env "GIT_REPO_PATH" ++ " status") =
      .ok stA)
    (hmkA : jsIncludes stA (upToDateMarker ctx.branchName) = false)
    (hplA : wA.run ("git -C " ++ envString env "GIT_REPO_PATH" ++
      " pull origin " ++ ctx.branchName) = .ok oPA)
    (hrvA : wA.run ("git -C " ++ envString env "GIT_REPO_PATH" ++
      " rev-parse HEAD") = .ok hashOutputA)
    (hmissA : wA.fexists (pathJoin ctx.tempFolder (appTarName hashOutputA nid)) =
      false)
    (hbA : wA.run ("tar -czf " ++ pathJoin ctx.tempFolder (appTarName hashOutputA nid) ++
      " -C " ++ dirname ctx.srcFolder ++ " " ++ basename ctx.srcFolder) = .ok oA) :
    (serverHandler cfg wS req).2 =
      [.exec .fetch ("git -C " ++ cfg.gitRepoPath ++ " fetch origin"),
       .exec .status ("git -C " ++ cfg.gitRepoPath ++ " status"),
       .log "Repo not in sync, pulling...",
       .exec .pull ("git -C " ++ cfg.gitRepoPath ++ " pull origin " ++
         cfg.branchName),
       .exec .revParse ("git -C " ++ cfg.gitRepoPath ++ " rev-parse HEAD"),
       .fsAccess (pathJoin cfg.gitRepoPath (serverTarName hashOutput)) false,
       .log "Creating tar file...",
       .exec .tarBuild ("cd " ++ cfg.gitRepoPath ++ " && tar -czf " ++
         serverTarName hashOutput ++ " " ++ cfg.srcFolder)] ∧
    (appHandler ctx env nid wA req).2 =
      [.exec .fetch ("git -C " ++ envString env "GIT_REPO_PATH" ++ " fetch origin"),
       .exec .status ("git -C " ++ envString env "GIT_REPO_PATH" ++ " status"),
       .log "Repo not in sync, pulling...",
       .exec .pull ("git -C " ++ envString env "GIT_REPO_PATH" ++
         " pull origin " ++ ctx.branchName),
       .exec .revParse ("git -C " ++ envString env "GIT_REPO_PATH" ++
         " rev-parse HEAD"),
       .fsAccess (pathJoin ctx.tempFolder (appTarName hashOutputA nid)) false,
       .exec .tarBuild ("tar -czf " ++
         pathJoin ctx.tempFolder (appTarName hashOutputA nid) ++ " -C " ++
         dirname ctx.srcFolder ++ " " ++ basename ctx.srcFolder)] := by
  have hsyncS : syncAndResolve cfg.gitRepoPath cfg.branchName wS =
      (.ok hashOutput,
        [.exec .fetch (fetchCmd cfg.gitRepoPath),
         .exec .status (statusCmd cfg.gitRepoPath),
         .log "Repo not in sync, pulling...",
         .exec .pull (pullCmd cfg.gitRepoPath cfg.branchName),
         .exec .revParse (revParseCmd cfg.gitRepoPath)]) := by
    simp [syncAndResolve, resolveHead, fetchCmd, statusCmd, pullCmd,
      revParseCmd, hfS, hstS, hmkS, hplS, hrvS]
  have hsyncA : syncAndResolve (envString env "GIT_REPO_PATH") ctx.branchName wA =
      (.ok hashOutputA,
        [.exec .fetch (fetchCmd (envString env "GIT_REPO_PATH")),
         .exec .status (statusCmd (envString env "GIT_REPO_PATH")),
         .log "Repo not in sync, pulling...",
         .exec .pull (pullCmd (envString env "GIT_REPO_PATH") ctx.branchName),
         .exec .revParse (revParseCmd (envString env "GIT_REPO_PATH"))]) := by
    simp [syncAndResolve, resolveHead, fetchCmd, statusCmd, pullCmd,
      revParseCmd, hfA, hstA, hmkA, hplA, hrvA]
  constructor
  · simp [serverHandler, hauthS, hsyncS, hmissS, serverTarCmd, hbS,
      fetchCmd, statusCmd, pullCmd, revParseCmd]
  · simp [appHandler, appTarStep, hauthA, hsyncA, hmissA, appTarCmd, hbA,
      fetchCmd, statusCmd, pullCmd, revParseCmd]

/-- Witness for C9: a concrete behind-the-remote run of the `server.js`
variant; all five commands, the pull with the raw branch name included,
appear in the trace spelled as raw concatenations. -/
theorem c9_witness :
    wPull.run ("git -C " ++ cfgT.gitRepoPath ++ " fetch origin") = .ok "" ∧
    wPull.run ("git -C " ++ cfgT.gitRepoPath ++ " status") = .ok behindStatus ∧
    jsIncludes behindStatus (upToDateMarker cfgT.branchName) = false ∧
    wPull.run ("git -C " ++ cfgT.gitRepoPath ++ " pull origin " ++
      cfgT.branchName) = .ok "" ∧
    (serverHandler cfgT wPull reqT).2 =
      [.exec .fetch ("git -C " ++ cfgT.gitRepoPath ++ " fetch origin"),
       .exec .status ("git -C " ++ cfgT.gitRepoPath ++ " status"),
       .log "Repo not in sync, pulling...",
       .exec .pull ("git -C " ++ cfgT.gitRepoPath ++ " pull origin " ++
         cfgT.branchName),
       .exec .revParse ("git -C " ++ cfgT.gitRepoPath ++ " rev-parse HEAD"),
       .fsAccess (pathJoin cfgT.gitRepoPath (serverTarName hashT)) false,
       .log "Creating tar file...",
       .exec .tarBuild ("cd " ++ cfgT.gitRepoPath ++ " && tar -czf " ++
         serverTarName hashT ++ " " ++ cfgT.srcFolder)] := by
  refine ⟨by decide, by decide, by decide, by decide, ?_⟩
  exact (c9_verbatim_interpolation cfgT ctxT envFull "n0" wPull wPull reqT
    "" behindStatus "" hashT "" behindStatus "" hashT "" ""
    (by decide) (by decide) (by decide) (by decide) (by decide) (by decide)
    (by decide) (by decide) (by decide) (by decide) (by decide) (by decide)
    (by decide) (by decide) (by decide) (by decide)).1

/-- Witness for C10: identical environments trivially agree on
`GIT_REPO_PATH`. -/
theorem c10_witness :
    envFull "GIT_REPO_PATH" = envFull "GIT_REPO_PATH" ∧
    appRequest "/tmp" envFull envFull "n0" wT reqT =
      appRequest "/tmp" envFull envFull "n0" wT reqT := by
  exact ⟨rfl,
    (c10_env_rebinding "/tmp" "n0" envFull envFull envFull wT reqT rfl).1⟩

end SrcServer
